import Mathlib

/-!
Verification of the serialized-mesh loader (`SerializedMesh`) and the
`MeshAttribute` texture of this repository, as a shallow embedding.

The first part models the uncompressed prologue of the `SerializedMesh`
constructor: filename resolution, the existence probe, the negative
shape-index check, the magic/version validation, and the end-of-file
directory resolver.  The underlying `FileStream` is modelled as a random
access byte source (`FileBytes`); every I/O action of the prologue is
recorded in an event trace, in source order, so that ordering properties
can be stated.  The trace returned stops at the point of failure.

The second part models the compressed body (after the `ZStream` wrap):
flags word, optional name, counts, the vertex-layout construction, the
bulk array reads (`read_helper` / `advance_helper`) and the face read.
The decompressed region is modelled as a finite byte list consumed
sequentially; a read past the end fails (the C++ stream throws EOF).
Scalar payloads are kept as their little-endian integer reading: no
stated property depends on float conversion arithmetic, only on which
bytes are consumed, where values are written, and on equality of decoded
data.  The post-processing loop (world transform, bounding box) is a
deterministic function of the decoded data and is not re-modelled;
equality of decoded data implies equality of the post-processed mesh.

C++ note: the constructor reads the magic and version into a signed
`short`; since the expected constants are below 2^15, comparing the raw
unsigned 16-bit value against them is behaviourally identical.
-/

namespace SerializedMesh

def MTS_FILEFORMAT_HEADER : Nat := 0x041C

def MTS_FILEFORMAT_VERSION_V3 : Nat := 0x0003

def MTS_FILEFORMAT_VERSION_V4 : Nat := 0x0004

/-- The `TriMeshFlags` bit values of the source. -/
def HasNormals : Nat := 0x0001

def HasTexcoords : Nat := 0x0002

def HasTangents : Nat := 0x0004

def HasColors : Nat := 0x0008

def FaceNormals : Nat := 0x0010

def SinglePrecision : Nat := 0x1000

def DoublePrecision : Nat := 0x2000

/-- `has_flag(flags, f)`: `(flags & f) != 0`. -/
def has_flag (flags f : Nat) : Bool := decide (flags &&& f ≠ 0)

/-- The random-access input file: a size and a byte at every position
(little-endian multi-byte reads are assembled from it). -/
structure FileBytes where
  size : Nat
  byte : Nat → Nat

/-- Little-endian read of `n` bytes starting at `pos`. -/
def leRead (f : FileBytes) : Nat → Nat → Nat
  | _, 0 => 0
  | pos, n + 1 => f.byte pos % 256 + 256 * leRead f (pos + 1) n

/-- Inputs of the constructor prologue: whether the resolved path exists,
the `shape_index` property (a C++ `int`, hence `Int` here), and the file
contents. -/
structure LoadInput where
  fileExists : Bool
  shape_index : Int
  file : FileBytes

/-- Failure taxonomy of the loader prologue. -/
inductive LoadError
  | NotFound
  | NegativeIndex
  | BadFormat
  | UnsupportedVersion
  | OutOfRange
deriving DecidableEq, Repr

/-- I/O actions of the prologue, in source order.  `read pos n` is a read
of `n` bytes at absolute position `pos` of the input file. -/
inductive Event
  | resolveFilename
  | probeExists
  | openStream
  | read (pos n : Nat)
  | seekTo (pos : Nat)
  | skipBy (n : Nat)
deriving DecidableEq, Repr

/-- The mesh count stored in the trailing `u32` of the end-of-file
directory. -/
def dirCount (f : FileBytes) : Nat := leRead f (f.size - 4) 4

/-- The C++ cast `(int) count` of the directory count (`uint32_t` to a
32-bit signed int). -/
def dirCountInt (f : FileBytes) : Int :=
  if dirCount f < 2 ^ 31 then (dirCount f : Int) else (dirCount f : Int) - 2 ^ 32

/-- The uncompressed prologue of the `SerializedMesh` constructor
(filename resolution through the end of the directory resolver), with its
I/O trace.  On success the returned `Nat` is the absolute file position
at which the decompressing stream starts reading (4 for sub-mesh 0;
`offset + 4` after the directory seek and the 4-byte header skip
otherwise).  The trace only holds the events issued before a failure. -/
def prologue (inp : LoadInput) : List Event × Except LoadError Nat :=
  let ev0 := [Event.resolveFilename, Event.probeExists]
  if inp.fileExists = false then (ev0, Except.error LoadError.NotFound)
  else if inp.shape_index < 0 then (ev0, Except.error LoadError.NegativeIndex)
  else
    let f := inp.file
    let ev1 := ev0 ++ [Event.openStream, Event.read 0 2, Event.read 2 2]
    let format := leRead f 0 2
    let version := leRead f 2 2
    if format ≠ MTS_FILEFORMAT_HEADER then (ev1, Except.error LoadError.BadFormat)
    else if version ≠ MTS_FILEFORMAT_VERSION_V3 ∧ version ≠ MTS_FILEFORMAT_VERSION_V4 then
      (ev1, Except.error LoadError.UnsupportedVersion)
    else if inp.shape_index ≠ 0 then
      let fsz := f.size
      let count := dirCount f
      let ev2 := ev1 ++ [Event.seekTo (fsz - 4), Event.read (fsz - 4) 4]
      if inp.shape_index > dirCountInt f then (ev2, Except.error LoadError.OutOfRange)
      else
        let i := inp.shape_index.toNat
        if version = MTS_FILEFORMAT_VERSION_V4 then
          let entry := fsz - 8 * (count - i) - 4
          let off := leRead f entry 8
          (ev2 ++ [Event.seekTo entry, Event.read entry 8, Event.seekTo off, Event.skipBy 4],
           Except.ok (off + 4))
        else
          let entry := fsz - 4 * (count - i + 1)
          let off := leRead f entry 4
          (ev2 ++ [Event.seekTo entry, Event.read entry 4, Event.seekTo off, Event.skipBy 4],
           Except.ok (off + 4))
    else (ev1, Except.ok 4)

/-! ### The compressed body

After the prologue the stream is wrapped in a `ZStream`; from that point
on reads are strictly sequential.  The decompressed region is modelled
as a finite byte list, and each read either takes a prefix of prescribed
length or fails (EOF). -/

/-- Take exactly `n` bytes from the front of the sequential stream;
fails (C++ EOF error) if fewer are available. -/
def takeB (n : Nat) (bs : List Nat) : Option (List Nat × List Nat) :=
  if n ≤ bs.length then some (bs.take n, bs.drop n) else none

/-- Little-endian value of a byte list. -/
def leNat : List Nat → Nat
  | [] => 0
  | b :: bs => b % 256 + 256 * leNat bs

/-- The 4 little-endian bytes of a 32-bit value (used to relate a flags
word to its on-file encoding). -/
def leBytes4 (n : Nat) : List Nat :=
  [n % 256, n / 2 ^ 8 % 256, n / 2 ^ 16 % 256, n / 2 ^ 24 % 256]

/-- The version-4 name read: bytes accumulated until a zero terminator
(the terminator is consumed and not part of the name); fails at EOF. -/
def readCString : List Nat → Option (List Nat × List Nat)
  | [] => none
  | b :: bs =>
    if b % 256 = 0 then some ([], bs)
    else
      match readCString bs with
      | some (nm, rest) => some (b :: nm, rest)
      | none => none

/-- Field names of the vertex record layout (`m_vertex_struct`). -/
inductive FName
  | x | y | z | nx | ny | nz | u | v | r | g | b
deriving DecidableEq, Repr

/-- The vertex record layout built by the constructor: position always;
normals when the caller has not disabled them; texcoords / colors when
the corresponding flag bit is set. -/
def vertexStruct (flags : Nat) (disable_vertex_normals : Bool) : List FName :=
  [FName.x, FName.y, FName.z]
  ++ (if !disable_vertex_normals then [FName.nx, FName.ny, FName.nz] else [])
  ++ (if has_flag flags HasTexcoords then [FName.u, FName.v] else [])
  ++ (if has_flag flags HasColors then [FName.r, FName.g, FName.b] else [])

/-- Position of the first field carrying a given name. -/
def fieldIndex (n : FName) : List FName → Nat
  | [] => 0
  | a :: t => if a = n then 0 else fieldIndex n t + 1

/-- `Struct::offset(name)`: byte offset of a field, `sw` bytes per
in-memory scalar (every field of the layout is one scalar wide). -/
def offsetOf (sw : Nat) (vs : List FName) (n : FName) : Nat := sw * fieldIndex n vs

/-- Position fields of the layout. -/
def isPositionField : FName → Bool
  | FName.x => true | FName.y => true | FName.z => true | _ => false

/-- Normal fields of the layout. -/
def isNormalField : FName → Bool
  | FName.nx => true | FName.ny => true | FName.nz => true | _ => false

/-- Texture-coordinate fields of the layout. -/
def isTexcoordField : FName → Bool
  | FName.u => true | FName.v => true | _ => false

/-- Color fields of the layout. -/
def isColorField : FName → Bool
  | FName.r => true | FName.g => true | FName.b => true | _ => false

/-- The in-memory writes performed by the scatter loop of `read_helper`:
for vertex `i` and component `d`, the scalar numbered `dim * i + d` of
the freshly read array is stored at byte `i * vsize + offset + d * sw`
of the vertex buffer.  Scalar payloads are kept as their little-endian
reading of the `w` source bytes. -/
def writesOf (vc vsize sw w offset dim : Nat) (data : List Nat) : List (Nat × Nat) :=
  (List.range vc).flatMap fun i =>
    (List.range dim).map fun d =>
      (i * vsize + offset + d * sw, leNat (((data.drop ((dim * i + d) * w))).take w))

/-- `read_helper(stream, dp, offset, dim)`: read `m_vertex_count * dim`
scalars of width 8 (`dp`) or 4 from the sequential stream and scatter
them row-major into the vertex buffer at the given field offset. -/
def read_helper (vc vsize sw : Nat) (dp : Bool) (offset dim : Nat) (bs : List Nat) :
    Option (List (Nat × Nat) × List Nat) :=
  let w := if dp then 8 else 4
  (takeB (vc * dim * w) bs).map fun dr => (writesOf vc vsize sw w offset dim dr.1, dr.2)

/-- `advance_helper(stream, dp, dim)`: consume the same number of bytes
as `read_helper` would, writing nothing (the decompressed stream cannot
seek, so skipped data is read and discarded). -/
def advance_helper (vc : Nat) (dp : Bool) (dim : Nat) (bs : List Nat) : Option (List Nat) :=
  let w := if dp then 8 else 4
  (takeB (vc * dim * w) bs).map Prod.snd

/-- The array-reading phase (positions, optional normals, optional
texcoords, optional colors, face indices) of the constructor.  Returns
the vertex-buffer writes, the raw face-index bytes, and the unconsumed
remainder of the sequential stream. -/
def decodeArrays (sw iw flags : Nat) (disable : Bool) (vc fc : Nat) (bs : List Nat) :
    Option (List (Nat × Nat) × List Nat × List Nat) := do
  let vs := vertexStruct flags disable
  let vsize := sw * vs.length
  let dp := has_flag flags DoublePrecision
  let (w1, bs1) ← read_helper vc vsize sw dp (offsetOf sw vs FName.x) 3 bs
  let (w2, bs2) ←
    if has_flag flags HasNormals then
      if disable then
        (advance_helper vc dp 3 bs1).map fun r => (([] : List (Nat × Nat)), r)
      else
        read_helper vc vsize sw dp (offsetOf sw vs FName.nx) 3 bs1
    else pure ([], bs1)
  let (w3, bs3) ←
    if has_flag flags HasTexcoords then
      read_helper vc vsize sw dp (offsetOf sw vs FName.u) 2 bs2
    else pure ([], bs2)
  let (w4, bs4) ←
    if has_flag flags HasColors then
      read_helper vc vsize sw dp (offsetOf sw vs FName.r) 3 bs3
    else pure ([], bs3)
  let (faceBytes, bs5) ← takeB (fc * iw * 3) bs4
  pure (w1 ++ w2 ++ w3 ++ w4, faceBytes, bs5)

/-- The decoded state of one sub-mesh: everything the constructor
computes from the compressed region.  `vertexAlloc` / `faceAlloc` are
the byte sizes of the two allocated buffers; `vertexWrites` the
file-driven writes into the vertex buffer; `rest` the unconsumed
remainder of the decompressed stream. -/
structure MeshData where
  name : Option (List Nat)
  vertex_count : Nat
  face_count : Nat
  vstruct : List FName
  vertex_size : Nat
  face_size : Nat
  vertexAlloc : Nat
  faceAlloc : Nat
  vertexWrites : List (Nat × Nat)
  faceBytes : List Nat
  recomputeNormals : Bool
  rest : List Nat
deriving DecidableEq, Repr

/-- The decode of the compressed body once the flags word is in hand:
optional name (version 4 only), the two `u64` counts, the layout, the
buffer allocations, and the array-reading phase.  `recomputeNormals`
records whether the constructor ends by calling
`recompute_vertex_normals()` (line 346 of the source: normals neither
disabled nor present in the file). -/
def decodeAfterFlags (sw iw ver : Nat) (disable : Bool) (flags : Nat) (bs : List Nat) :
    Option MeshData := do
  let (nm, bs1) ←
    if ver = MTS_FILEFORMAT_VERSION_V4 then
      (readCString bs).map fun p => ((some p.1 : Option (List Nat)), p.2)
    else pure (none, bs)
  let (vcB, bs2) ← takeB 8 bs1
  let (fcB, bs3) ← takeB 8 bs2
  let vc := leNat vcB
  let fc := leNat fcB
  let vs := vertexStruct flags disable
  let vsize := sw * vs.length
  let fsize := iw * 3
  let (ws, faceBytes, bs4) ← decodeArrays sw iw flags disable vc fc bs3
  pure {
    name := nm
    vertex_count := vc
    face_count := fc
    vstruct := vs
    vertex_size := vsize
    face_size := fsize
    vertexAlloc := (vc + 1) * vsize
    faceAlloc := (fc + 1) * fsize
    vertexWrites := ws
    faceBytes := faceBytes
    recomputeNormals := !disable && !(has_flag flags HasNormals)
    rest := bs4 }

/-- Decode of the whole compressed body, starting with the `u32` flags
word. -/
def decodeBody (sw iw ver : Nat) (disable : Bool) (bs : List Nat) : Option MeshData := do
  let (flagsB, bs1) ← takeB 4 bs
  decodeAfterFlags sw iw ver disable (leNat flagsB) bs1

/-- Modelled from the spec: the base `Mesh` accessor
`has_vertex_texcoords()` (declared in `mesh.h`, which is not part of
this excerpt) reports whether the decoded mesh carries texture
coordinate storage, i.e. whether the vertex layout holds the texcoord
fields. -/
def has_vertex_texcoords (vs : List FName) : Bool :=
  vs.any fun f => f = FName.u ∨ f = FName.v


end SerializedMesh

namespace MeshAttribute

/-- Does `hay` start with `needle`?  (The building block of
`std::string::find`.) -/
def leadsWith : List Char → List Char → Bool
  | [], _ => true
  | _ :: _, [] => false
  | a :: as, b :: bs => a = b && leadsWith as bs

/-- `std::string::find(needle)` on `hay`: the first position at which
`needle` occurs, `none` standing for `npos`. -/
def findSubstr (needle : List Char) : List Char → Option Nat
  | [] => if leadsWith needle [] then some 0 else none
  | a :: t =>
    if leadsWith needle (a :: t) then some 0
    else (findSubstr needle t).map (· + 1)

/-- The one failure of the `MeshAttribute` constructor. -/
inductive AttrError
  | invalidName
deriving DecidableEq, Repr

/-- The `MeshAttribute` constructor: reads the required "name" property;
throws when the name holds neither "vertex_" nor "face_" as a substring
(`std::string::find == npos` for both); otherwise stores the name and
the "scale" property (default `1.0`) unchanged.  The scale is a numeric
value merely stored, never computed with, so it is modelled as `ℚ`. -/
def meshAttribute (name : List Char) (scale : Option ℚ) : Except AttrError (List Char × ℚ) :=
  if findSubstr ("vertex_".toList) name = none ∧ findSubstr ("face_".toList) name = none then
    Except.error AttrError.invalidName
  else
    Except.ok (name, scale.getD 1)

end MeshAttribute

namespace SerializedMesh

/-! ### Concrete inputs used by individual claims -/

/-- A version-4 container whose end-of-file directory reports exactly one
mesh: magic `0x041C`, version `0x0004`, 16 body bytes, directory entry
`offset[0] = 0` (bytes 12–19), trailing count 1 (bytes 20–23). -/
def file1 : FileBytes :=
  ⟨24, fun p => [0x1C, 0x04, 0x04, 0x00, 0, 0, 0, 0, 0, 0, 0, 0,
                 0, 0, 0, 0, 0, 0, 0, 0, 1, 0, 0, 0].getD p 0⟩

/-- Requesting sub-mesh index 1 of the one-mesh container `file1`. -/
def inp1 : LoadInput := ⟨true, 1, file1⟩

/-- A version-4 container with two directory entries: `offset[0] = 0` at
bytes 4–11, `offset[1] = 6` at bytes 12–19, count 2 at bytes 20–23. -/
def file3 : FileBytes :=
  ⟨24, fun p => [0x1C, 0x04, 0x04, 0x00, 0, 0, 0, 0, 0, 0, 0, 0,
                 6, 0, 0, 0, 0, 0, 0, 0, 2, 0, 0, 0].getD p 0⟩

/-- Requesting sub-mesh index 1 of the two-mesh container `file3`. -/
def inp3 : LoadInput := ⟨true, 1, file3⟩

/-- A negative `shape_index` request against an existing (empty) file. -/
def inpNeg : LoadInput := ⟨true, -1, ⟨0, fun _ => 0⟩⟩

/-- A four-byte file whose leading `u16` is zero (not the magic). -/
def inpBad : LoadInput := ⟨true, 0, ⟨4, fun _ => 0⟩⟩

/-- A file with the right magic but version `0x0005`. -/
def inpBadVer : LoadInput :=
  ⟨true, 0, ⟨4, fun p => [0x1C, 0x04, 0x05, 0x00].getD p 0⟩⟩

/-- A compressed body with flags `0x0010` (`FaceNormals` set, no stored
normals), version 3 (no name), `vertex_count = 0`, `face_count = 0`. -/
def c2body : List Nat := leBytes4 0x0010 ++ List.replicate 16 0

/-- A version-3 body with flags 0, `vertex_count = 1`, `face_count = 1`,
12 position bytes and 12 face-index bytes. -/
def c8body : List Nat := leBytes4 0 ++ [1] ++ List.replicate 7 0 ++ [1] ++ List.replicate 7 0
  ++ List.replicate 12 0 ++ List.replicate 12 0

/-- The decode of `c8body`: one vertex, one face, normals enabled, all
zero payloads. -/
def c8md : MeshData :=
  { name := none
    vertex_count := 1
    face_count := 1
    vstruct := [FName.x, FName.y, FName.z, FName.nx, FName.ny, FName.nz]
    vertex_size := 24
    face_size := 12
    vertexAlloc := 48
    faceAlloc := 24
    vertexWrites := [(0, 0), (4, 0), (8, 0)]
    faceBytes := List.replicate 12 0
    recomputeNormals := true
    rest := [] }

/-- A version-3 body with flags `0x1001` (`HasNormals`, single
precision), `vertex_count = 1`, `face_count = 0`. -/
def c4flags : Nat := 0x1001

/-- Position bytes of the C4 witness body. -/
def c4pos : List Nat := List.replicate 12 0

/-- First normal-array payload of the C4 witness. -/
def c4ns : List Nat := List.replicate 12 0

/-- Second normal-array payload of the C4 witness (differs from the
first). -/
def c4ns' : List Nat := List.replicate 12 1

/-- Full C4 witness body: flags, `vertex_count = 1`, `face_count = 0`,
positions, normals. -/
def c4body : List Nat :=
  leBytes4 c4flags ++ ([1] ++ List.replicate 7 0) ++ List.replicate 8 0 ++ c4pos ++ c4ns

/-! ## Theorems -/

theorem takeB_len (a b : List Nat) : takeB a.length (a ++ b) = some (a, b) := by
  simp [takeB, List.take_left, List.drop_left]

theorem takeB_some {n : Nat} {bs a b : List Nat} (h : takeB n bs = some (a, b)) :
    a.length = n ∧ bs = a ++ b := by
  unfold takeB at h
  split at h
  · next hle =>
    obtain ⟨rfl, rfl⟩ := Prod.mk.injEq .. ▸ Option.some.injEq .. ▸ h
    exact ⟨by simpa using hle, (List.take_append_drop n bs).symm⟩
  · exact absurd h (by simp)

/-- C1: the end-of-file directory resolver rejects a requested sub-mesh
index only when it exceeds the directory count (`shape_index > count`),
so the boundary request `k = N` is NOT rejected: on a container whose
directory reports one mesh, requesting index 1 sails past the range
check, reads a bogus directory entry and returns a seek target, instead
of failing with the OutOfRange error that the claim (and the source's
own error message, "requested %i out of 0..%i" with `count - 1`)
prescribes. -/
theorem index_eq_count_not_rejected :
    dirCount file1 = 1 ∧ inp1.shape_index = 1 ∧ (prologue inp1).2 = Except.ok 5 :=
  ⟨rfl, rfl, rfl⟩

/-- C2: the recomputation condition of the constructor (line 346) tests
only the caller preference and the file's `HasNormals` bit, never the
file's `FaceNormals` bit `0x0010`: a file whose flags word is exactly
`0x0010` (face-normal mode requested by the file, no stored normals),
decoded with vertex normals enabled, still triggers
`recompute_vertex_normals()`, contrary to the claim and to the format
documentation in the source (bit `0x0010` "equivalent to specifying
face_normals=true"). -/
theorem facenormal_flag_recompute_triggered :
    has_flag 0x0010 FaceNormals = true ∧ has_flag 0x0010 HasNormals = false ∧
    (decodeBody 4 4 MTS_FILEFORMAT_VERSION_V3 false c2body).map MeshData.recomputeNormals
      = some true :=
  ⟨rfl, rfl, rfl⟩

/-- C6 counterexample: on a negative `shape_index` request against an
existing file the load does fail, but only after the input path has
already been probed for existence: the I/O trace preceding the failure
holds the `probeExists` action, refuting "no file is opened, read, or
probed before the negativity check". -/
theorem probe_occurs_before_negative_check :
    (prologue inpNeg).2 = Except.error LoadError.NegativeIndex ∧
    Event.probeExists ∈ (prologue inpNeg).1 :=
  ⟨rfl, by decide⟩

/-- C6 (amended): for every negative `shape_index` request against an
existing file, the load fails with the negativity error before the file
is opened and before any byte of it is read, seeked or skipped — the
I/O trace up to the failure is exactly the filename resolution followed
by the existence probe. -/
theorem negative_index_rejected_before_open (inp : LoadInput)
    (hex : inp.fileExists = true) (hneg : inp.shape_index < 0) :
    (prologue inp).2 = Except.error LoadError.NegativeIndex ∧
    (prologue inp).1 = [Event.resolveFilename, Event.probeExists] := by
  simp [prologue, hex, hneg]

/-- Witness for the amended C6 theorem at a concrete negative request. -/
theorem negative_index_rejected_before_open_witness :
    (prologue inpNeg).2 = Except.error LoadError.NegativeIndex ∧
    (prologue inpNeg).1 = [Event.resolveFilename, Event.probeExists] :=
  negative_index_rejected_before_open inpNeg rfl (by decide)

/-- C7: for every existing input with a nonnegative index, a leading
`u16` different from `0x041C` makes the load fail with the BadFormat
error, and a correct magic followed by a version other than `0x0003` /
`0x0004` makes it fail with the UnsupportedVersion error; in both cases
the prologue stops right after the two header reads — no mesh position
is produced and no further parsing occurs. -/
theorem header_validation (inp : LoadInput)
    (hex : inp.fileExists = true) (hnn : 0 ≤ inp.shape_index) :
    (leRead inp.file 0 2 ≠ MTS_FILEFORMAT_HEADER →
      prologue inp = ([Event.resolveFilename, Event.probeExists, Event.openStream,
        Event.read 0 2, Event.read 2 2], Except.error LoadError.BadFormat)) ∧
    (leRead inp.file 0 2 = MTS_FILEFORMAT_HEADER →
     leRead inp.file 2 2 ≠ MTS_FILEFORMAT_VERSION_V3 →
     leRead inp.file 2 2 ≠ MTS_FILEFORMAT_VERSION_V4 →
      prologue inp = ([Event.resolveFilename, Event.probeExists, Event.openStream,
        Event.read 0 2, Event.read 2 2], Except.error LoadError.UnsupportedVersion)) := by
  have hlt : ¬ inp.shape_index < 0 := not_lt.mpr hnn
  constructor
  · intro hm
    simp [prologue, hex, hlt, hm]
  · intro hm hv3 hv4
    simp [prologue, hex, hlt, hm, hv3, hv4]

/-- Witness for C7 at two concrete headers: a zero magic and a version
`0x0005` header. -/
theorem header_validation_witness :
    prologue inpBad = ([Event.resolveFilename, Event.probeExists, Event.openStream,
      Event.read 0 2, Event.read 2 2], Except.error LoadError.BadFormat) ∧
    prologue inpBadVer = ([Event.resolveFilename, Event.probeExists, Event.openStream,
      Event.read 0 2, Event.read 2 2], Except.error LoadError.UnsupportedVersion) :=
  ⟨(header_validation inpBad rfl (by decide)).1 (by decide),
   (header_validation inpBadVer rfl (by decide)).2 (by decide) (by decide) (by decide)⟩

/-- C5: for every flags word and caller preference, the constructed
vertex layout starts with the 3 position fields; holds the 3 normal
fields exactly when the caller has not disabled vertex normals
(independently of the file's `HasNormals` bit); holds the 2 texcoord
fields exactly when bit `0x0002` is set; holds the 3 color fields
exactly when bit `0x0008` is set; consequently the texcoord-presence
query of the decoded mesh is true exactly when bit `0x0002` is set. -/
theorem vertex_layout_fields (flags : Nat) (d : Bool) :
    (vertexStruct flags d).take 3 = [FName.x, FName.y, FName.z] ∧
    (vertexStruct flags d).countP isPositionField = 3 ∧
    ((vertexStruct flags d).countP isNormalField = if d then 0 else 3) ∧
    ((vertexStruct flags d).countP isTexcoordField = if flags &&& HasTexcoords ≠ 0 then 2 else 0) ∧
    ((vertexStruct flags d).countP isColorField = if flags &&& HasColors ≠ 0 then 3 else 0) ∧
    (has_vertex_texcoords (vertexStruct flags d) = true ↔ flags &&& HasTexcoords ≠ 0) := by
  cases d <;> by_cases h2 : flags &&& HasTexcoords = 0 <;> by_cases h8 : flags &&& HasColors = 0 <;>
    simp [vertexStruct, has_flag, has_vertex_texcoords, h2, h8,
      isPositionField, isNormalField, isTexcoordField, isColorField, List.countP_cons]

/-- C3: when a positive sub-mesh index passes the range check, the
directory resolver reads the stored offset at the version-dependent
entry position — `file_size - 8*(count - i) - 4` as a `u64` for version
`0x0004`, `file_size - 4*(count - i + 1)` as a `u32` for version
`0x0003` — then seeks the stream to that offset and skips exactly the 4
header bytes, so decompression begins at `offset + 4`.  The two size
hypotheses confine the statement to files large enough that the C++
`size_t` arithmetic does not wrap. -/
theorem directory_entry_positions (inp : LoadInput)
    (hex : inp.fileExists = true)
    (hm : leRead inp.file 0 2 = MTS_FILEFORMAT_HEADER)
    (hpos : 0 < inp.shape_index)
    (hin : ¬ inp.shape_index > dirCountInt inp.file)
    (_hsz4 : leRead inp.file 2 2 = MTS_FILEFORMAT_VERSION_V4 →
      8 * (dirCount inp.file - inp.shape_index.toNat) + 4 ≤ inp.file.size)
    (_hsz3 : leRead inp.file 2 2 = MTS_FILEFORMAT_VERSION_V3 →
      4 * (dirCount inp.file - inp.shape_index.toNat + 1) ≤ inp.file.size) :
    (leRead inp.file 2 2 = MTS_FILEFORMAT_VERSION_V4 →
      prologue inp =
       ([Event.resolveFilename, Event.probeExists, Event.openStream,
         Event.read 0 2, Event.read 2 2,
         Event.seekTo (inp.file.size - 4), Event.read (inp.file.size - 4) 4,
         Event.seekTo (inp.file.size - 8 * (dirCount inp.file - inp.shape_index.toNat) - 4),
         Event.read (inp.file.size - 8 * (dirCount inp.file - inp.shape_index.toNat) - 4) 8,
         Event.seekTo (leRead inp.file
           (inp.file.size - 8 * (dirCount inp.file - inp.shape_index.toNat) - 4) 8),
         Event.skipBy 4],
        Except.ok (leRead inp.file
          (inp.file.size - 8 * (dirCount inp.file - inp.shape_index.toNat) - 4) 8 + 4))) ∧
    (leRead inp.file 2 2 = MTS_FILEFORMAT_VERSION_V3 →
      prologue inp =
       ([Event.resolveFilename, Event.probeExists, Event.openStream,
         Event.read 0 2, Event.read 2 2,
         Event.seekTo (inp.file.size - 4), Event.read (inp.file.size - 4) 4,
         Event.seekTo (inp.file.size - 4 * (dirCount inp.file - inp.shape_index.toNat + 1)),
         Event.read (inp.file.size - 4 * (dirCount inp.file - inp.shape_index.toNat + 1)) 4,
         Event.seekTo (leRead inp.file
           (inp.file.size - 4 * (dirCount inp.file - inp.shape_index.toNat + 1)) 4),
         Event.skipBy 4],
        Except.ok (leRead inp.file
          (inp.file.size - 4 * (dirCount inp.file - inp.shape_index.toNat + 1)) 4 + 4))) := by
  have hlt : ¬ inp.shape_index < 0 := by omega
  have hne : inp.shape_index ≠ 0 := by omega
  constructor
  · intro hv
    have hv3 : leRead inp.file 2 2 ≠ MTS_FILEFORMAT_VERSION_V3 := by
      rw [hv]; decide
    simp [prologue, hex, hlt, hm, hv, hv3, hne, hin]
  · intro hv
    have hv4 : leRead inp.file 2 2 ≠ MTS_FILEFORMAT_VERSION_V4 := by
      rw [hv]; decide
    simp [prologue, hex, hlt, hm, hv, hv4, hne, hin]
    decide

/-- Witness for C3 on the two-mesh container `file3` at index 1:
entry position `24 - 8*(2-1) - 4 = 12`, stored offset 6, decompression
begins at 10. -/
theorem directory_entry_positions_witness :
    prologue inp3 =
      ([Event.resolveFilename, Event.probeExists, Event.openStream,
        Event.read 0 2, Event.read 2 2, Event.seekTo 20, Event.read 20 4,
        Event.seekTo 12, Event.read 12 8, Event.seekTo 6, Event.skipBy 4],
       Except.ok 10) :=
  (directory_entry_positions inp3 rfl rfl (by decide) (by decide)
    (fun _ => by decide) (fun h => absurd h (by decide))).1 (by decide)

end SerializedMesh

namespace MeshAttribute

theorem leadsWith_iff (n h : List Char) : leadsWith n h = true ↔ ∃ t, h = n ++ t := by
  induction n generalizing h with
  | nil => simp [leadsWith]
  | cons a as ih =>
    cases h with
    | nil => simp [leadsWith]
    | cons b bs =>
      simp only [leadsWith, Bool.and_eq_true, decide_eq_true_eq, List.cons_append,
        List.cons.injEq, ih]
      constructor
      · rintro ⟨rfl, t, rfl⟩
        exact ⟨t, rfl, rfl⟩
      · rintro ⟨t, rfl, rfl⟩
        exact ⟨rfl, t, rfl⟩

theorem findSubstr_none_iff (n h : List Char) :
    findSubstr n h = none ↔ ¬ ∃ p q, h = p ++ n ++ q := by
  induction h with
  | nil =>
    by_cases hl : leadsWith n [] = true
    · obtain ⟨t, ht⟩ := (leadsWith_iff n []).mp hl
      refine iff_of_false (by simp [findSubstr, hl]) (fun hc => ?_)
      exact hc ⟨[], t, by simpa using ht⟩
    · refine iff_of_true (by simp [findSubstr, hl]) ?_
      rintro ⟨p, q, hp⟩
      have h1 := List.append_eq_nil.mp hp.symm
      have h2 := List.append_eq_nil.mp h1.1
      exact hl (by rw [h2.2]; rfl)
  | cons a t ih =>
    by_cases hl : leadsWith n (a :: t) = true
    · obtain ⟨s, hs⟩ := (leadsWith_iff n (a :: t)).mp hl
      refine iff_of_false (by simp [findSubstr, hl]) (fun hc => ?_)
      exact hc ⟨[], s, by simpa using hs⟩
    · rw [findSubstr, if_neg hl, Option.map_eq_none', ih]
      constructor
      · rintro hnone ⟨p, q, hp⟩
        cases p with
        | nil =>
          exact hl ((leadsWith_iff n _).mpr ⟨q, by simpa using hp⟩)
        | cons c p' =>
          simp only [List.cons_append, List.cons.injEq] at hp
          exact hnone ⟨p', q, hp.2⟩
      · rintro hno ⟨p, q, hp⟩
        exact hno ⟨a :: p, q, by simp [hp]⟩

/-- C9: the `MeshAttribute` constructor throws exactly when its "name"
property holds neither "vertex_" nor "face_" as a substring (the check
is `std::string::find`, so the substring may occur at any position — a
prefix is not required, despite the wording of the error message); when
it does not throw, the name and the scale (default 1) are stored
unchanged. -/
theorem mesh_attribute_spec (name : List Char) (scale : Option ℚ) :
    (meshAttribute name scale = Except.error AttrError.invalidName ↔
      (¬ ∃ p q, name = p ++ ("vertex_".toList) ++ q) ∧
      (¬ ∃ p q, name = p ++ ("face_".toList) ++ q)) ∧
    ((∃ p q, name = p ++ ("vertex_".toList) ++ q) ∨
     (∃ p q, name = p ++ ("face_".toList) ++ q) →
      meshAttribute name scale = Except.ok (name, scale.getD 1)) := by
  constructor
  · unfold meshAttribute
    split
    · next hc =>
      exact iff_of_true rfl
        ⟨(findSubstr_none_iff _ _).mp hc.1, (findSubstr_none_iff _ _).mp hc.2⟩
    · next hc =>
      refine iff_of_false (by simp) ?_
      rintro ⟨hA, hB⟩
      exact hc ⟨(findSubstr_none_iff _ _).mpr hA, (findSubstr_none_iff _ _).mpr hB⟩
  · intro hor
    have hne : ¬ (findSubstr ("vertex_".toList) name = none ∧
        findSubstr ("face_".toList) name = none) := by
      rintro ⟨hA, hB⟩
      rcases hor with h | h
      · exact (findSubstr_none_iff _ _).mp hA h
      · exact (findSubstr_none_iff _ _).mp hB h
    unfold meshAttribute
    rw [if_neg hne]

/-- Witness for C9: a name where "vertex_" occurs strictly inside (not
as a prefix) is accepted and stored unchanged with the default scale. -/
theorem mesh_attribute_spec_witness :
    meshAttribute ("my_vertex_colors".toList) none
      = Except.ok ("my_vertex_colors".toList, 1) ∧
    leadsWith ("vertex_".toList) ("my_vertex_colors".toList) = false :=
  ⟨(mesh_attribute_spec ("my_vertex_colors".toList) none).2
    (Or.inl ⟨"my_".toList, "colors".toList, by decide⟩),
   by decide⟩

end MeshAttribute

namespace SerializedMesh

theorem leNat_leBytes4 (n : Nat) (h : n < 2 ^ 32) : leNat (leBytes4 n) = n := by
  simp only [leBytes4, leNat]
  omega

theorem has_flag_xor_tangent (f m : Nat) (hm : HasTangents &&& m = 0) :
    has_flag (f ^^^ HasTangents) m = has_flag f m := by
  unfold has_flag
  rw [Nat.and_xor_distrib_right, hm, Nat.xor_zero]

theorem vertexStruct_xor_tangent (f : Nat) (d : Bool) :
    vertexStruct (f ^^^ HasTangents) d = vertexStruct f d := by
  unfold vertexStruct
  rw [has_flag_xor_tangent f HasTexcoords (by decide),
      has_flag_xor_tangent f HasColors (by decide)]

theorem decodeArrays_xor_tangent (sw iw f : Nat) (d : Bool) (vc fc : Nat) (bs : List Nat) :
    decodeArrays sw iw (f ^^^ HasTangents) d vc fc bs = decodeArrays sw iw f d vc fc bs := by
  have h1 := has_flag_xor_tangent f HasNormals (by decide)
  have h2 := has_flag_xor_tangent f HasTexcoords (by decide)
  have h3 := has_flag_xor_tangent f HasColors (by decide)
  have h4 := has_flag_xor_tangent f DoublePrecision (by decide)
  simp only [decodeArrays, vertexStruct_xor_tangent, h1, h2, h3, h4]

theorem decodeAfterFlags_xor_tangent (sw iw ver : Nat) (d : Bool) (f : Nat) (bs : List Nat) :
    decodeAfterFlags sw iw ver d (f ^^^ HasTangents) bs
      = decodeAfterFlags sw iw ver d f bs := by
  have h1 := has_flag_xor_tangent f HasNormals (by decide)
  simp only [decodeAfterFlags, decodeArrays_xor_tangent, vertexStruct_xor_tangent, h1]

/-- C10: the decoder never inspects flag bit `0x0004` (`HasTangents`):
two compressed bodies identical except for that bit of the flags word
decode to identical results — same name, counts, layout, buffer
allocations, buffer writes, recomputation behaviour, and the same
unconsumed stream remainder (hence identical stream consumption).  The
post-processed mesh (world-space buffers and the bounding box) is a
deterministic function of this decoded data, so it is identical as
well. -/
theorem tangent_bit_ignored (sw iw ver : Nat) (d : Bool) (f : Nat) (rest : List Nat)
    (hf : f < 2 ^ 32) :
    decodeBody sw iw ver d (leBytes4 (f ^^^ HasTangents) ++ rest)
      = decodeBody sw iw ver d (leBytes4 f ++ rest) := by
  have hx : f ^^^ HasTangents < 2 ^ 32 := Nat.xor_lt_two_pow hf (by decide)
  have h4 : ∀ g : Nat, takeB 4 (leBytes4 g ++ rest) = some (leBytes4 g, rest) := by
    intro g
    have hlen : (leBytes4 g).length = 4 := rfl
    rw [← hlen]
    exact takeB_len _ _
  unfold decodeBody
  rw [h4, h4]
  show decodeAfterFlags sw iw ver d (leNat (leBytes4 (f ^^^ HasTangents))) rest
      = decodeAfterFlags sw iw ver d (leNat (leBytes4 f)) rest
  rw [leNat_leBytes4 _ hx, leNat_leBytes4 _ hf, decodeAfterFlags_xor_tangent]

/-- Witness for C10: flipping the tangent bit on a concrete body. -/
theorem tangent_bit_ignored_witness :
    (4 : Nat) < 2 ^ 32 ∧
    decodeBody 4 4 MTS_FILEFORMAT_VERSION_V3 false
        (leBytes4 (4 ^^^ HasTangents) ++ List.replicate 16 0)
      = decodeBody 4 4 MTS_FILEFORMAT_VERSION_V3 false
        (leBytes4 4 ++ List.replicate 16 0) :=
  ⟨by norm_num,
   tangent_bit_ignored 4 4 MTS_FILEFORMAT_VERSION_V3 false 4 (List.replicate 16 0)
     (by norm_num)⟩

end SerializedMesh

namespace SerializedMesh

theorem read_helper_cases (vc vsize sw : Nat) (dp : Bool) (off dim : Nat) (bs : List Nat) :
    read_helper vc vsize sw dp off dim bs
      = (takeB (vc * dim * (if dp then 8 else 4)) bs).map
          (fun dr => (writesOf vc vsize sw (if dp then 8 else 4) off dim dr.1, dr.2)) := rfl

theorem decodeArrays_rest_indep (sw iw flags : Nat) (vc fc : Nat) (bs : List Nat) :
    (decodeArrays sw iw flags true vc fc bs).map (fun r => r.2.2)
      = (decodeArrays sw iw flags false vc fc bs).map (fun r => r.2.2) := by
  simp only [decodeArrays, read_helper_cases, advance_helper]
  generalize (if has_flag flags DoublePrecision then (8:Nat) else 4) = w
  simp only [Option.bind_eq_bind, Option.pure_def, Option.map_bind, Option.bind_map,
    Option.map_map, Function.comp, if_true, Bool.false_eq_true, if_false]
  by_cases hn : has_flag flags HasNormals = true <;>
  by_cases ht : has_flag flags HasTexcoords = true <;>
  by_cases hc : has_flag flags HasColors = true <;>
  simp only [hn, ht, hc, if_true, if_false, Bool.false_eq_true, Option.map_bind,
    Option.some_bind, Option.map_some', Function.comp]

end SerializedMesh

namespace SerializedMesh

theorem decodeBody_rest_indep (sw iw ver : Nat) (bs : List Nat) :
    (decodeBody sw iw ver true bs).map MeshData.rest
      = (decodeBody sw iw ver false bs).map MeshData.rest := by
  simp only [decodeBody, decodeAfterFlags, Option.bind_eq_bind, Option.pure_def,
    Option.map_bind, Option.bind_map, Option.map_map, Function.comp]
  refine Option.bind_congr fun a _ => ?_
  by_cases hv : ver = MTS_FILEFORMAT_VERSION_V4 <;>
    simp only [hv, if_true, if_false, Option.map_bind, Option.bind_map, Option.map_map,
      Option.some_bind, Function.comp]
  · refine Option.bind_congr fun b _ => ?_
    refine Option.bind_congr fun c _ => ?_
    refine Option.bind_congr fun d _ => ?_
    simp only [Option.map_some']
    simpa [Option.map_eq_bind, Function.comp] using
      decodeArrays_rest_indep sw iw (leNat a.1) (leNat c.1) (leNat d.1) d.2
  · refine Option.bind_congr fun c _ => ?_
    refine Option.bind_congr fun d _ => ?_
    simp only [Option.map_some']
    simpa [Option.map_eq_bind, Function.comp] using
      decodeArrays_rest_indep sw iw (leNat a.1) (leNat c.1) (leNat d.1) d.2

theorem advance_discards (sw iw flags : Nat) (vc fc : Nat) (posB nsB nsB' rest : List Nat)
    (hn : has_flag flags HasNormals = true)
    (hp : posB.length = vc * 3 * (if has_flag flags DoublePrecision then 8 else 4))
    (h1 : nsB.length = vc * 3 * (if has_flag flags DoublePrecision then 8 else 4))
    (h2 : nsB'.length = vc * 3 * (if has_flag flags DoublePrecision then 8 else 4)) :
    decodeArrays sw iw flags true vc fc (posB ++ nsB ++ rest)
      = decodeArrays sw iw flags true vc fc (posB ++ nsB' ++ rest) := by
  have e1 : takeB (vc * 3 * (if has_flag flags DoublePrecision then 8 else 4))
      (posB ++ (nsB ++ rest)) = some (posB, nsB ++ rest) := by
    rw [← hp]; exact takeB_len _ _
  have e1' : takeB (vc * 3 * (if has_flag flags DoublePrecision then 8 else 4))
      (posB ++ (nsB' ++ rest)) = some (posB, nsB' ++ rest) := by
    rw [← hp]; exact takeB_len _ _
  have e2 : takeB (vc * 3 * (if has_flag flags DoublePrecision then 8 else 4))
      (nsB ++ rest) = some (nsB, rest) := by
    rw [← h1]; exact takeB_len _ _
  have e2' : takeB (vc * 3 * (if has_flag flags DoublePrecision then 8 else 4))
      (nsB' ++ rest) = some (nsB', rest) := by
    rw [← h2]; exact takeB_len _ _
  simp only [decodeArrays, read_helper_cases, advance_helper, hn, List.append_assoc,
    e1, e1', e2, e2', if_true, Option.bind_eq_bind, Option.pure_def, Option.map_some',
    Option.some_bind]

/-- C4: normal suppression consumes exactly the bytes that storing would
consume, and stores nothing.  First conjunct: for any compressed body,
the stream remainder after the whole decode (hence the number of bytes
consumed, and the success of every read) is the same whether vertex
normals are suppressed or stored.  Second conjunct: with `HasNormals`
set and normals suppressed, the decode of the array region is unchanged
when the bytes of the normal array are replaced by any other bytes of
the same length — no value of the normal array reaches the vertex
buffer or any other output. -/
theorem normal_suppression_stream_equiv (sw iw ver flags : Nat) (vc fc : Nat)
    (body posB nsB nsB' rest : List Nat)
    (hn : has_flag flags HasNormals = true)
    (hp : posB.length = vc * 3 * (if has_flag flags DoublePrecision then 8 else 4))
    (h1 : nsB.length = vc * 3 * (if has_flag flags DoublePrecision then 8 else 4))
    (h2 : nsB'.length = vc * 3 * (if has_flag flags DoublePrecision then 8 else 4)) :
    ((decodeBody sw iw ver true body).map MeshData.rest
      = (decodeBody sw iw ver false body).map MeshData.rest) ∧
    decodeArrays sw iw flags true vc fc (posB ++ nsB ++ rest)
      = decodeArrays sw iw flags true vc fc (posB ++ nsB' ++ rest) :=
  ⟨decodeBody_rest_indep sw iw ver body,
   advance_discards sw iw flags vc fc posB nsB nsB' rest hn hp h1 h2⟩

/-- Witness for C4 on a concrete single-precision body with one vertex
and a stored normal array. -/
theorem normal_suppression_stream_equiv_witness :
    ((decodeBody 4 4 MTS_FILEFORMAT_VERSION_V3 true c4body).map MeshData.rest
      = (decodeBody 4 4 MTS_FILEFORMAT_VERSION_V3 false c4body).map MeshData.rest) ∧
    decodeArrays 4 4 c4flags true 1 0 (c4pos ++ c4ns ++ [])
      = decodeArrays 4 4 c4flags true 1 0 (c4pos ++ c4ns' ++ []) :=
  normal_suppression_stream_equiv 4 4 MTS_FILEFORMAT_VERSION_V3 c4flags 1 0
    c4body c4pos c4ns c4ns' [] (by decide) (by decide) (by decide) (by decide)

end SerializedMesh

namespace SerializedMesh

theorem mem_writesOf {vc vsize sw w off dim : Nat} {data : List Nat} {p : Nat × Nat}
    (h : p ∈ writesOf vc vsize sw w off dim data) :
    ∃ i e, i < vc ∧ e < dim ∧ p.1 = i * vsize + off + e * sw := by
  simp only [writesOf, List.mem_flatMap, List.mem_map, List.mem_range] at h
  obtain ⟨i, hi, e, he, hp⟩ := h
  exact ⟨i, e, hi, he, by rw [← hp]⟩

theorem writesOf_bound {vc vsize sw w off dim : Nat} {data : List Nat} {p : Nat × Nat}
    (hmem : p ∈ writesOf vc vsize sw w off dim data)
    (hb : off + dim * sw ≤ vsize) :
    p.1 + sw ≤ vc * vsize := by
  obtain ⟨i, e, hi, he, hp⟩ := mem_writesOf hmem
  have h1 : (e + 1) * sw ≤ dim * sw := Nat.mul_le_mul_right sw (by omega)
  have h2 : (i + 1) * vsize ≤ vc * vsize := Nat.mul_le_mul_right vsize (by omega)
  calc p.1 + sw = i * vsize + (off + (e * sw + sw)) := by rw [hp]; ring
    _ ≤ i * vsize + (off + dim * sw) := by
        have h3 : e * sw + sw ≤ dim * sw := by
          calc e * sw + sw = (e + 1) * sw := by ring
            _ ≤ dim * sw := h1
        omega
    _ ≤ i * vsize + vsize := by omega
    _ = (i + 1) * vsize := by ring
    _ ≤ vc * vsize := h2

theorem struct_field_bounds (sw flags : Nat) (d : Bool) :
    offsetOf sw (vertexStruct flags d) FName.x + 3 * sw
        ≤ sw * (vertexStruct flags d).length ∧
    (d = false → offsetOf sw (vertexStruct flags d) FName.nx + 3 * sw
        ≤ sw * (vertexStruct flags d).length) ∧
    (has_flag flags HasTexcoords = true → offsetOf sw (vertexStruct flags d) FName.u + 2 * sw
        ≤ sw * (vertexStruct flags d).length) ∧
    (has_flag flags HasColors = true → offsetOf sw (vertexStruct flags d) FName.r + 3 * sw
        ≤ sw * (vertexStruct flags d).length) := by
  cases d <;> by_cases ht : has_flag flags HasTexcoords = true <;>
    by_cases hc : has_flag flags HasColors = true <;>
    simp [vertexStruct, offsetOf, fieldIndex, ht, hc] <;> omega

set_option maxHeartbeats 2000000 in
theorem decodeArrays_inv (sw iw flags : Nat) (d : Bool) (vc fc : Nat) (bs : List Nat)
    (ws : List (Nat × Nat)) (fb rest : List Nat)
    (h : decodeArrays sw iw flags d vc fc bs = some (ws, fb, rest)) :
    (∀ p ∈ ws, p.1 + sw ≤ vc * (sw * (vertexStruct flags d).length)) ∧
    fb.length = fc * iw * 3 := by
  obtain ⟨hx, hnx, hu, hr⟩ := struct_field_bounds sw flags d
  cases d <;>
    simp only [decodeArrays, read_helper_cases, advance_helper] at h <;>
    simp only [Option.bind_eq_bind, Option.pure_def, Option.map_bind, Option.bind_map,
      Option.map_map, Function.comp, if_true, Bool.false_eq_true, if_false,
      Option.some_bind] at h <;>
    rw [Option.bind_eq_some] at h <;>
    obtain ⟨a, ha, h⟩ := h
  all_goals
    repeat'
      first
      | (rw [Option.bind_eq_some] at h; obtain ⟨_, _, h⟩ := h)
      | split at h
  all_goals
    simp only [Option.some.injEq, Prod.mk.injEq] at h
  all_goals
    obtain ⟨hws, hfb, hrest⟩ := h
  all_goals
    refine ⟨fun p hp => ?_, ?_⟩
  all_goals
    first
    | (rw [← hws] at hp
       simp only [List.mem_append, List.not_mem_nil, or_false, false_or] at hp
       try casesm* _ ∨ _
       all_goals
         first
         | exact writesOf_bound (by assumption) hx
         | exact writesOf_bound (by assumption) (hnx rfl)
         | exact writesOf_bound (by assumption) (hu (by assumption))
         | exact writesOf_bound (by assumption) (hr (by assumption)))
    | (rw [← hfb]
       exact (takeB_some (by assumption)).1)

set_option maxHeartbeats 1000000 in
/-- C8: after a successful decode the two buffers are allocated with one
sentinel record beyond the declared counts — `(vertex_count + 1)` vertex
records and `(face_count + 1)` face records — while the file-driven
writes stay strictly within the first `vertex_count` records (every
stored scalar of width `sw` ends at or before byte
`vertex_count * vertex_size`) and the face read fills exactly
`face_count` records, so neither sentinel record is ever written from
file data. -/
theorem buffer_allocation_and_writes (sw iw ver : Nat) (d : Bool) (bs : List Nat) (md : MeshData)
    (h : decodeBody sw iw ver d bs = some md) :
    md.vertexAlloc = (md.vertex_count + 1) * md.vertex_size ∧
    md.faceAlloc = (md.face_count + 1) * md.face_size ∧
    (∀ p ∈ md.vertexWrites, p.1 + sw ≤ md.vertex_count * md.vertex_size) ∧
    md.faceBytes.length = md.face_count * md.face_size := by
  simp only [decodeBody, decodeAfterFlags, Option.bind_eq_bind, Option.pure_def,
    Option.map_bind, Option.bind_map, Option.map_map, Function.comp] at h
  rw [Option.bind_eq_some] at h
  obtain ⟨a, ha, h⟩ := h
  all_goals
    repeat'
      first
      | (rw [Option.bind_eq_some] at h; obtain ⟨_, _, h⟩ := h)
      | split at h
  all_goals
    rw [Option.some.injEq] at h
  all_goals
    subst h
  all_goals
    refine ⟨rfl, rfl, ?_, ?_⟩
  all_goals
    first
    | exact (decodeArrays_inv _ _ _ _ _ _ _ _ _ _ (by assumption)).1
    | exact ((decodeArrays_inv _ _ _ _ _ _ _ _ _ _ (by assumption)).2).trans (Nat.mul_assoc _ _ _)

/-- Witness for C8 on a concrete one-vertex one-face body. -/
theorem buffer_allocation_and_writes_witness :
    decodeBody 4 4 MTS_FILEFORMAT_VERSION_V3 false c8body = some c8md ∧
    c8md.vertexAlloc = (c8md.vertex_count + 1) * c8md.vertex_size ∧
    (∀ p ∈ c8md.vertexWrites, p.1 + 4 ≤ c8md.vertex_count * c8md.vertex_size) ∧
    c8md.faceBytes.length = c8md.face_count * c8md.face_size :=
  ⟨by decide,
   (buffer_allocation_and_writes 4 4 MTS_FILEFORMAT_VERSION_V3 false c8body c8md (by decide)).1,
   (buffer_allocation_and_writes 4 4 MTS_FILEFORMAT_VERSION_V3 false c8body c8md (by decide)).2.2.1,
   (buffer_allocation_and_writes 4 4 MTS_FILEFORMAT_VERSION_V3 false c8body c8md (by decide)).2.2.2⟩

end SerializedMesh
